import Mathlib

/-!
Shallow embedding of the simulation core of the BoulderDash repository
(`src/game/grid.rs`, `src/game/tile.rs`, `src/game/diamond.rs`).

Rust `i32` coordinates and counters are modelled as `Int`; `Vec` as `List`;
`Option`/`if let` as `Option`; a `panic!`/`unwrap`/`expect` inside the tick is
modelled as `Except.error`.  Rendering calls (canvas context, sprites) are
pure side effects on the screen and carry no game state, so they are dropped
from the state-passing embedding; the control flow around them (zone lookups
that can panic) is kept.

Some collaborating files of the repository (`enums/movement.rs`,
`enums/field.rs`, `display/action.rs`, `display/zone.rs`, `rock.rs`,
`player.rs`, `wall.rs`) are not part of the provided sources; the definitions
embedding them are modelled from the specification and are marked
`Modelled from the spec:` in their doc comments.
-/

set_option autoImplicit false
set_option linter.unusedVariables false

namespace Game

/-- The `Movement` enum (declared in the missing `enums/movement.rs`); its five
variants `Afk`, `MoveUp`, `MoveDown`, `MoveLeft`, `MoveRight` are taken from
the uses in `grid.rs`, `diamond.rs` and `lib.rs`. -/
inductive Movement where
  | Afk
  | MoveUp
  | MoveDown
  | MoveLeft
  | MoveRight
deriving DecidableEq, Repr

/-- Modelled from the spec: `Movement::edit_position` lives in the missing
`enums/movement.rs`.  The spec (§3 Movement) describes it as the pure one-step
coordinate translation of the four cardinal directions.  Rows of the level
text are indexed top to bottom by `y` and the grid array is indexed `[y][x]`,
so moving down is `y + 1`.  `Afk` carries no displacement (the spec says it
must not be passed to a transform; it is modelled as the identity and is never
reached through `get_nearest_tile`). -/
def Movement.edit_position : Movement → Int × Int → Int × Int
  | .Afk, p => p
  | .MoveUp, (x, y) => (x, y - 1)
  | .MoveDown, (x, y) => (x, y + 1)
  | .MoveLeft, (x, y) => (x - 1, y)
  | .MoveRight, (x, y) => (x + 1, y)

/-- The `Rock` entity (its `rock.rs` is not among the provided sources).
Modelled from the spec: §4.3 gives Rock the same falling-entity state as
Diamond, a position and a `falling_since` counter. -/
structure Rock where
  position : Int × Int
  falling_since : Int
deriving DecidableEq, Repr

/-- The `Diamond` entity, from `diamond.rs`: a position and the
`falling_since` counter. -/
structure Diamond where
  position : Int × Int
  falling_since : Int
deriving DecidableEq, Repr

/-- The `Player` entity (its `player.rs` is not among the provided sources).
Modelled from the spec: §4.1 says the player carries a movement intent
recorded by a cloning mutator, and a push state cancelled by `canced_push`;
only its position, intent and push flag are needed by the embedded code. -/
structure Player where
  position : Int × Int
  movement : Movement
  pushing : Bool
deriving DecidableEq, Repr

/-- The `Wall` entity (its `wall.rs` is not among the provided sources); only
its position is observable from the embedded code. -/
structure Wall where
  position : Int × Int
deriving DecidableEq, Repr

/-- The dynamic type tags used by `get_tiles_with_entity::<T>` downcasts. -/
inductive EntityKind where
  | Rock
  | Diamond
  | Player
deriving DecidableEq, Repr

/-- A value behind the `Rc<dyn Entity>` of a `Field::Entity`: one of the three
concrete entity kinds.  The Rust side uses `Any` downcasts; the embedding uses
this closed sum. -/
inductive GEntity where
  | rock (r : Rock)
  | diamond (d : Diamond)
  | player (p : Player)
deriving DecidableEq, Repr

/-- `Entity::get_type` of each kind.  `Diamond`'s implementation is in
`diamond.rs` (returns `"Diamond"`); `Rock`'s and `Player`'s are in the missing
files and are modelled from the spec's type names (`is_falling` in
`diamond.rs` compares the string against `"Player"`). -/
def GEntity.get_type : GEntity → String
  | .rock _ => "Rock"
  | .diamond _ => "Diamond"
  | .player _ => "Player"

/-- `Collidable::get_position` of each kind. -/
def GEntity.get_position : GEntity → Int × Int
  | .rock r => r.position
  | .diamond d => d.position
  | .player p => p.position

/-- The dynamic type of an entity value, used to embed `downcast_ref::<T>`:
the downcast succeeds exactly when the kind matches. -/
def GEntity.kind : GEntity → EntityKind
  | .rock _ => .Rock
  | .diamond _ => .Diamond
  | .player _ => .Player

/-- The `Field` enum (declared in the missing `enums/field.rs`); its variants
`Empty`, `Dirt`, `Wall(..)`, `Exit`, `Entity(..)` are taken from the uses in
`grid.rs`, `tile.rs` and `diamond.rs`. -/
inductive Field where
  | Empty
  | Dirt
  | Wall (w : Wall)
  | Exit
  | Entity (e : GEntity)
deriving DecidableEq, Repr

/-- A grid cell, from `tile.rs`: immutable position plus current `Field`. -/
structure Tile where
  x : Int
  y : Int
  field : Field
deriving DecidableEq, Repr

/-- `Tile::get_position` from `tile.rs`. -/
def Tile.get_position (t : Tile) : Int × Int :=
  (t.x, t.y)

/-- `Tile::get_object_on` from `tile.rs`: returns the field only for the
`Entity`, `Wall` and `Exit` variants; `Dirt` and `Empty` yield `None`. -/
def Tile.get_object_on (t : Tile) : Option Field :=
  match t.field with
  | .Entity _ | .Wall _ | .Exit => some t.field
  | _ => none

/-- `Tile::set_object_on` from `tile.rs`: unconditional overwrite of the
field. -/
def Tile.set_object_on (t : Tile) (field : Field) : Tile :=
  { t with field := field }

/-- An `Action` (declared in the missing `display/action.rs`): per the spec a
deferred mutation record of a target coordinate and the `Field` that
coordinate should hold, exactly the two arguments of every `Action::new` call
in the provided sources. -/
structure Action where
  coordinates : Int × Int
  field : Field
deriving DecidableEq, Repr

/-- A `Zone` (declared in the missing `display/zone.rs`).  Modelled from the
spec: a rectangular region of tile-space (§3 Zone); the pixel-space data only
feeds rendering and is not observable by the simulation state. -/
structure Zone where
  x0 : Int
  y0 : Int
  x1 : Int
  y1 : Int
deriving DecidableEq, Repr

/-- Modelled from the spec: membership of a tile coordinate in a zone's
rectangle. -/
def Zone.contains_pos (z : Zone) (x y : Int) : Bool :=
  decide (z.x0 ≤ x) && decide (x < z.x1) && decide (z.y0 ≤ y) && decide (y < z.y1)

/-- Modelled from the spec: `Zone::get_current_zone` (missing
`display/zone.rs`) looks up which zone contains the given coordinate;
§4.1/§7 treat a failed lookup as an absent value the caller `expect`s on. -/
def Zone.get_current_zone (x y : Int) (zones : List Zone) : Option Zone :=
  zones.find? (fun z => z.contains_pos x y)

/-- Modelled from the spec: `Zone::from_map` (missing `display/zone.rs`)
computes, once at construction, a partition of the declared `width × height`
tile-space; the canvas dimensions only affect the pixel mapping of each zone,
which the simulation model does not observe.  Modelled as the single zone
covering the whole declared map rectangle. -/
def Zone.from_map (width height canvas_sx canvas_sy : Int) : List Zone :=
  [{ x0 := 0, y0 := 0, x1 := width, y1 := height }]

/-- The `Grid` struct from `grid.rs`: the 2D tile array (row-major, `y` then
`x`), the cached player coordinate and the zone table. -/
structure Grid where
  tiles : List (List Tile)
  player_position : Int × Int
  zones : List Zone
deriving DecidableEq, Repr

/-- `Grid::get_tile` from `grid.rs`: `tiles.get(y as usize).and_then(|row|
row.get(x as usize))`.  A negative `i32` cast to `usize` wraps to at least
`2^64 - 2^31`, which is out of bounds for every constructible `Vec`, so
negative coordinates are embedded as a direct `none`. -/
def Grid.get_tile (g : Grid) (x y : Int) : Option Tile :=
  if 0 ≤ x ∧ 0 ≤ y then
    (g.tiles[y.toNat]?).bind (fun row => row[x.toNat]?)
  else
    none

/-- `Grid::get_player_position` from `grid.rs`. -/
def Grid.get_player_position (g : Grid) : Int × Int :=
  g.player_position

/-- `Grid::get_nearest_tile` from `grid.rs`: `Afk` yields no tile; any other
direction resolves the one-step translated coordinate. -/
def Grid.get_nearest_tile (g : Grid) (x y : Int) (direction : Movement) : Option Tile :=
  match direction with
  | .Afk => none
  | other =>
    let coordinates := other.edit_position (x, y)
    g.get_tile coordinates.1 coordinates.2

/-- The inner loop of `Grid::get_tiles_with_entity` over one row: push every
entity of the requested dynamic type, keeping the accumulator order. -/
def scan_row (k : EntityKind) (acc : List GEntity) : List Tile → List GEntity
  | [] => acc
  | t :: ts =>
    match t.get_object_on with
    | some (.Entity e) =>
      if e.kind = k then scan_row k (acc ++ [e]) ts else scan_row k acc ts
    | _ => scan_row k acc ts

/-- The outer loop of `Grid::get_tiles_with_entity` over the rows. -/
def scan_rows (k : EntityKind) (acc : List GEntity) : List (List Tile) → List GEntity
  | [] => acc
  | row :: rows => scan_rows k (scan_row k acc row) rows

/-- `Grid::get_tiles_with_entity::<T>` from `grid.rs`: full scan of the tile
array (rows top to bottom, tiles left to right within a row) collecting the
entities whose downcast to the requested type succeeds. -/
def Grid.get_tiles_with_entity (g : Grid) (k : EntityKind) : List GEntity :=
  scan_rows k [] g.tiles

/-- The per-tile filter realised by the body of `get_tiles_with_entity`: the
entity on the tile, when its dynamic type matches. -/
def entity_of_kind (k : EntityKind) (t : Tile) : Option GEntity :=
  match t.get_object_on with
  | some (.Entity e) => if e.kind = k then some e else none
  | _ => none

/-- Modelled from the spec: `Action::apply` (missing `display/action.rs`)
mutates the tile at the action's target coordinate to hold the action's
`Field` (§3 Action, §4.2 `set_object_on`); a target without a tile leaves the
grid unchanged, matching the recoverable absent-lookup discipline of §7. -/
def Action.apply (a : Action) (g : Grid) : Grid :=
  if 0 ≤ a.coordinates.1 ∧ 0 ≤ a.coordinates.2 then
    match g.tiles[a.coordinates.2.toNat]? with
    | none => g
    | some row =>
      match row[a.coordinates.1.toNat]? with
      | none => g
      | some t =>
        { g with
          tiles := g.tiles.set a.coordinates.2.toNat
            (row.set a.coordinates.1.toNat (t.set_object_on a.field)) }
  else
    g

/-- `Grid::apply_actions` from `grid.rs`: apply each action in emission order.
The per-action rendering call has no effect on the game state (its zone lookup
is an `if let` that silently skips) and is dropped. -/
def Grid.apply_actions (g : Grid) (actions : List Action) : Grid :=
  actions.foldl (fun g a => a.apply g) g

/-- The nested helper `can_move_to` of `Diamond::is_falling` in `diamond.rs`,
verbatim: an absent tile is not eligible; an entity occupant is eligible only
when it is the Player, `falling_since > 0` and the direction is `MoveDown`;
`Wall`, `Dirt`, `Exit` occupants are not eligible; `Empty` or no occupant of
interest is eligible. -/
def can_move_to (tile : Option Tile) (movement : Movement) (falling_since : Int) :
    Option Movement :=
  match tile with
  | some tile =>
    match tile.get_object_on with
    | some (.Entity e) =>
      if e.get_type = "Player" ∧ falling_since > 0 ∧ movement = Movement.MoveDown then
        some movement
      else
        none
    | some (.Wall _) | some .Dirt | some .Exit => none
    | some .Empty | none => some movement
  | none => none

/-- `Diamond::is_falling` from `diamond.rs`: try `MoveDown`, then `MoveLeft`,
then `MoveRight`; the first direction accepted by `can_move_to` wins. -/
def Diamond.is_falling (d : Diamond) (g : Grid) : Option Movement :=
  match can_move_to (g.get_nearest_tile d.position.1 d.position.2 .MoveDown)
      .MoveDown d.falling_since with
  | some movement => some movement
  | none =>
    match can_move_to (g.get_nearest_tile d.position.1 d.position.2 .MoveLeft)
        .MoveLeft d.falling_since with
    | some movement => some movement
    | none =>
      match can_move_to (g.get_nearest_tile d.position.1 d.position.2 .MoveRight)
          .MoveRight d.falling_since with
      | some movement => some movement
      | none => none

/-- `Movable::move_to` for `Diamond` from `diamond.rs`: vacate the old cell,
then occupy the new cell with a clone of the receiver. -/
def Diamond.move_to (d : Diamond) (ax ay nx ny : Int) : List Action :=
  [Action.mk (ax, ay) Field.Empty, Action.mk (nx, ny) (Field.Entity (.diamond d))]

/-- `Fallable::fall` for `Diamond` from `diamond.rs`: if a fall direction is
eligible, increment `falling_since` on the clone and emit its `move_to`
actions; otherwise reset the clone's `falling_since` to 0 and re-place it on
the current tile. -/
def Diamond.fall (d : Diamond) (g : Grid) : List Action :=
  match d.is_falling g with
  | some movement =>
    let p := movement.edit_position d.position
    Diamond.move_to { d with falling_since := d.falling_since + 1 }
      d.position.1 d.position.2 p.1 p.2
  | none =>
    [Action.mk d.position (Field.Entity (.diamond { d with falling_since := 0 }))]

/-- `Collidable::get_future_position` for `Diamond` from `diamond.rs`. -/
def Diamond.get_future_position (d : Diamond) (g : Grid) : Int × Int :=
  match d.is_falling g with
  | some direction => direction.edit_position d.position
  | none => d.position

/-- `Collidable::check_collision` for `Diamond` from `diamond.rs`,
instantiated at the only call site (the player). -/
def Diamond.check_collision_player (d : Diamond) (p : Player) (g : Grid) : Bool :=
  decide (d.get_future_position g = p.position)

/-- `Entity::update` for `Diamond` from `diamond.rs`: `unwrap` the tile at the
cached player position (a missing tile is a panic, embedded as `error`); if it
holds an entity, `unwrap` its downcast to `Player` (a non-player entity is a
panic) and evaluate the collision check, whose result is currently unused
(the explosion is a TODO in the source); in the non-panicking paths, emit the
fall actions. -/
def Diamond.update (d : Diamond) (g : Grid) : Except String (List Action) :=
  match g.get_tile g.get_player_position.1 g.get_player_position.2 with
  | none => .error "called Option unwrap on a None value"
  | some player_tile =>
    match player_tile.get_object_on with
    | some (.Entity e) =>
      match e with
      | .player p =>
        let _ := d.check_collision_player p g
        .ok (d.fall g)
      | _ => .error "called Option unwrap on a None value"
    | _ => .ok (d.fall g)

/-- Modelled from the spec: `Movable::move_to` for `Rock` (missing
`rock.rs`); §4.3 gives Rock and Diamond the same falling-entity contract, so
it mirrors `Diamond::move_to` with a rock clone. -/
def Rock.move_to (r : Rock) (ax ay nx ny : Int) : List Action :=
  [Action.mk (ax, ay) Field.Empty, Action.mk (nx, ny) (Field.Entity (.rock r))]

/-- Modelled from the spec: `Fallable::is_falling` for `Rock` (missing
`rock.rs`), the §4.3 directional candidate test shared with `Diamond`. -/
def Rock.is_falling (r : Rock) (g : Grid) : Option Movement :=
  match can_move_to (g.get_nearest_tile r.position.1 r.position.2 .MoveDown)
      .MoveDown r.falling_since with
  | some movement => some movement
  | none =>
    match can_move_to (g.get_nearest_tile r.position.1 r.position.2 .MoveLeft)
        .MoveLeft r.falling_since with
    | some movement => some movement
    | none =>
      match can_move_to (g.get_nearest_tile r.position.1 r.position.2 .MoveRight)
          .MoveRight r.falling_since with
      | some movement => some movement
      | none => none

/-- Modelled from the spec: `Fallable::fall` for `Rock` (missing `rock.rs`),
the §4.3 resolution shared with `Diamond`. -/
def Rock.fall (r : Rock) (g : Grid) : List Action :=
  match r.is_falling g with
  | some movement =>
    let p := movement.edit_position r.position
    Rock.move_to { r with falling_since := r.falling_since + 1 }
      r.position.1 r.position.2 p.1 p.2
  | none =>
    [Action.mk r.position (Field.Entity (.rock { r with falling_since := 0 }))]

/-- Modelled from the spec: `Collidable::get_future_position` for `Rock`. -/
def Rock.get_future_position (r : Rock) (g : Grid) : Int × Int :=
  match r.is_falling g with
  | some direction => direction.edit_position r.position
  | none => r.position

/-- Modelled from the spec: `Entity::update` for `Rock` (missing `rock.rs`),
mirroring `Diamond::update` per the shared §4.3 contract and §4.3's
`check_collision` description: it dereferences the tile at the cached player
position before emitting its fall actions. -/
def Rock.update (r : Rock) (g : Grid) : Except String (List Action) :=
  match g.get_tile g.get_player_position.1 g.get_player_position.2 with
  | none => .error "called Option unwrap on a None value"
  | some player_tile =>
    match player_tile.get_object_on with
    | some (.Entity e) =>
      match e with
      | .player p =>
        let _ := decide (r.get_future_position g = p.position)
        .ok (r.fall g)
      | _ => .error "called Option unwrap on a None value"
    | _ => .ok (r.fall g)

/-- Modelled from the spec: `Player::set_movement` (missing `player.rs`), the
cloning mutator of §4.1 that records the movement intent. -/
def Player.set_movement (p : Player) (m : Movement) : Player :=
  { p with movement := m }

/-- Modelled from the spec: `Player::canced_push` (missing `player.rs`),
§4.1's "cancel any push" transform: a no-displacement `Action` re-placing the
player, with its push state cleared, on its current tile. -/
def Player.canced_push (p : Player) : Action :=
  Action.mk p.position (Field.Entity (.player { p with pushing := false }))

/-- `Grid::set_player_doing` from `grid.rs`: look up the player's tile, and if
it holds a `Player` entity, clone it with the requested movement; when
`pushing` is false the emitted action is the clone's `canced_push`, otherwise
it re-places the clone on the current tile; the action is applied at once.
Either lookup failing silently does nothing (`if let`). -/
def Grid.set_player_doing (g : Grid) (movement : Movement) (pushing : Bool) : Grid :=
  match g.get_tile g.player_position.1 g.player_position.2 with
  | some player_tile =>
    match player_tile.get_object_on with
    | some (.Entity (.player player)) =>
      let clone_player := player.set_movement movement
      let action :=
        if !pushing then
          clone_player.canced_push
        else
          Action.mk g.player_position (Field.Entity (.player clone_player))
      action.apply g
    | _ => g
  | none => g

/-- The `actions.extend(entity.update(self))` loop of `Grid::update`: run each
entity's update against the same grid, concatenating the action lists in
collection order; the first panic (embedded as `error`) aborts the tick. -/
def collect_updates (f : GEntity → Except String (List Action)) :
    List GEntity → Except String (List Action)
  | [] => .ok []
  | e :: es =>
    match f e with
    | .error msg => .error msg
    | .ok acts =>
      match collect_updates f es with
      | .error msg => .error msg
      | .ok rest => .ok (acts ++ rest)

/-- The dispatch of the rock pass of `Grid::update`: the collected entities
are rocks (the wildcard arm is unreachable). -/
def rock_update_dispatch (g : Grid) : GEntity → Except String (List Action)
  | .rock r => r.update g
  | _ => .ok []

/-- The dispatch of the diamond pass of `Grid::update`: the collected entities
are diamonds (the wildcard arm is unreachable). -/
def diamond_update_dispatch (g : Grid) : GEntity → Except String (List Action)
  | .diamond d => d.update g
  | _ => .ok []

/-- `Grid::update` from `grid.rs`, the tick entry point, parameterised by the
player tile's `update` capability `ptu` (the `Tile::update` called on the
player's tile is not among the provided sources; §4.1 only requires that it
yields the player's action list).  Steps, in source order: collect and apply
the rock actions; `expect` the zone of the cached player position; collect the
player tile's actions when that tile exists; if there are none, record the
player as idle via `set_player_doing(Afk, false)`, else apply them; refresh
the cached player coordinate from the first `Player` entity found; `expect`
the zone of the refreshed position (the zone-change comparison only triggers a
redraw, which carries no game state); collect and apply the diamond
actions. -/
def Grid.update (ptu : Tile → Grid → List Action) (g : Grid) : Except String Grid :=
  match collect_updates (rock_update_dispatch g) (g.get_tiles_with_entity .Rock) with
  | .error msg => .error msg
  | .ok rock_actions =>
    let g1 := g.apply_actions rock_actions
    match Zone.get_current_zone g1.player_position.1 g1.player_position.2 g1.zones with
    | none => .error "No zone found for player"
    | some zone =>
      let actions :=
        match g1.get_tile g1.player_position.1 g1.player_position.2 with
        | some player_tile => ptu player_tile g1
        | none => []
      let g2 := if actions.isEmpty then g1.set_player_doing .Afk false
                else g1.apply_actions actions
      let g3 :=
        match (g2.get_tiles_with_entity .Player).head? with
        | some player => { g2 with player_position := player.get_position }
        | none => g2
      match Zone.get_current_zone g3.player_position.1 g3.player_position.2 g3.zones with
      | none => .error "No zone found for player"
      | some zone2 =>
        match collect_updates (diamond_update_dispatch g3)
            (g3.get_tiles_with_entity .Diamond) with
        | .error msg => .error msg
        | .ok diamond_actions => .ok (g3.apply_actions diamond_actions)

/-- The rock pass of `Grid::update`, as a standalone step. -/
def Grid.rocks_pass (g : Grid) : Except String Grid :=
  match collect_updates (rock_update_dispatch g) (g.get_tiles_with_entity .Rock) with
  | .error msg => .error msg
  | .ok rock_actions => .ok (g.apply_actions rock_actions)

/-- The player pass of `Grid::update` (zone `expect`, player tile update or
idle recording, player coordinate refresh, second zone `expect`), as a
standalone step. -/
def Grid.player_pass (ptu : Tile → Grid → List Action) (g : Grid) : Except String Grid :=
  match Zone.get_current_zone g.player_position.1 g.player_position.2 g.zones with
  | none => .error "No zone found for player"
  | some zone =>
    let actions :=
      match g.get_tile g.player_position.1 g.player_position.2 with
      | some player_tile => ptu player_tile g
      | none => []
    let g2 := if actions.isEmpty then g.set_player_doing .Afk false
              else g.apply_actions actions
    let g3 :=
      match (g2.get_tiles_with_entity .Player).head? with
      | some player => { g2 with player_position := player.get_position }
      | none => g2
    match Zone.get_current_zone g3.player_position.1 g3.player_position.2 g3.zones with
    | none => .error "No zone found for player"
    | some zone2 => .ok g3

/-- The diamond pass of `Grid::update`, as a standalone step. -/
def Grid.diamonds_pass (g : Grid) : Except String Grid :=
  match collect_updates (diamond_update_dispatch g) (g.get_tiles_with_entity .Diamond) with
  | .error msg => .error msg
  | .ok diamond_actions => .ok (g.apply_actions diamond_actions)

/-- Worker for `split_ws`: walk the characters, accumulating the current
fragment (reversed); whitespace closes a fragment, empty fragments are
dropped. -/
def split_ws_aux : List Char → List Char → List String
  | [], cur => if cur.isEmpty then [] else [String.mk cur.reverse]
  | c :: cs, cur =>
    if c.isWhitespace then
      if cur.isEmpty then split_ws_aux cs []
      else String.mk cur.reverse :: split_ws_aux cs []
    else split_ws_aux cs (c :: cur)

/-- `str::split_whitespace` as used by `Grid::from_str`: the non-empty
fragments between whitespace runs. -/
def split_ws (s : String) : List String :=
  split_ws_aux s.toList []

/-- Decimal digit accumulation for `string_to_int`: fails on any non-digit
character. -/
def nat_of_digits_aux (acc : Nat) : List Char → Option Nat
  | [] => some acc
  | c :: cs =>
    if c.isDigit then nat_of_digits_aux (acc * 10 + (c.toNat - '0'.toNat)) cs
    else none

/-- `str::parse::<i32>` as used by `Grid::from_str`: an optional sign followed
by at least one decimal digit (the `i32` range check cannot fail on the small
level headers this code reads and is not modelled). -/
def string_to_int (s : String) : Option Int :=
  match s.toList with
  | [] => none
  | '-' :: rest =>
    match rest with
    | [] => none
    | _ => (nat_of_digits_aux 0 rest).map (fun n => -(n : Int))
  | '+' :: rest =>
    match rest with
    | [] => none
    | _ => (nat_of_digits_aux 0 rest).map (fun n => (n : Int))
  | l => (nat_of_digits_aux 0 l).map (fun n => (n : Int))

/-- The header parsing of `Grid::from_str` (`grid.rs` lines 28-40): line 1 is
`<height> <width>`, line 2 is `<player_x> <player_y>`; every `expect` (missing
line, missing part, unparsable integer) is a load-time panic, embedded as
`none`. -/
def parse_header (ls : List String) : Option (Int × Int × Int × Int) := do
  let size_line ← ls[0]?
  let size_parts := split_ws size_line
  let height_str ← size_parts[0]?
  let height ← string_to_int height_str
  let width_str ← size_parts[1]?
  let width ← string_to_int width_str
  let player_line ← ls[1]?
  let player_parts := split_ws player_line
  let px_str ← player_parts[0]?
  let player_x ← string_to_int px_str
  let py_str ← player_parts[1]?
  let player_y ← string_to_int py_str
  pure (height, width, player_x, player_y)

/-- The character-to-`Field` mapping of `Grid::from_str` (`grid.rs` lines
47-55).  `Diamond::new` (in `diamond.rs`) starts `falling_since` at 0;
`Rock::new` and `Player::new` are in the missing files and are modelled from
the spec with the analogous initial state (counter 0, no intent, no push). -/
def field_of_char (x y : Int) (ch : Char) : Field :=
  match ch with
  | 'W' => Field.Wall { position := (x, y) }
  | 'r' => Field.Entity (.rock { position := (x, y), falling_since := 0 })
  | 'd' => Field.Entity (.diamond { position := (x, y), falling_since := 0 })
  | '.' => Field.Dirt
  | 'P' => Field.Entity (.player { position := (x, y), movement := .Afk, pushing := false })
  | 'X' => Field.Exit
  | _ => Field.Empty

/-- The inner `for (x, ch) in line.chars().enumerate()` loop of
`Grid::from_str`: one row of tiles, `x` counting characters from `x0`. -/
def build_row (y : Int) (x0 : Nat) : List Char → List Tile
  | [] => []
  | ch :: rest =>
    Tile.mk (x0 : Int) y (field_of_char (x0 : Int) y ch) :: build_row y (x0 + 1) rest

/-- The outer `for (y, line) in lines.enumerate()` loop of `Grid::from_str`:
the rows of tiles, `y` counting lines from `y0`. -/
def build_rows (y0 : Nat) : List String → List (List Tile)
  | [] => []
  | line :: rest => build_row (y0 : Int) 0 line.toList :: build_rows (y0 + 1) rest

/-- `Grid::from_str` from `grid.rs`, over the `lines()` decomposition of the
level text: parse the header from lines 1 and 2, skip line 3, build the tile
rows from the remaining lines, and compute the zones from the declared
dimensions. -/
def Grid.from_str (ls : List String) (canvas_sx canvas_sy : Int) : Option Grid :=
  match parse_header ls with
  | none => none
  | some (height, width, player_x, player_y) =>
    some { tiles := build_rows 0 (ls.drop 3),
           player_position := (player_x, player_y),
           zones := Zone.from_map width height canvas_sx canvas_sy }

/-! ## Helper lemmas -/

/-- `Tile::get_object_on` returning an occupant pins down the tile's field. -/
theorem field_of_get_object_on (t : Tile) (f : Field)
    (h : t.get_object_on = some f) : t.field = f := by
  unfold Tile.get_object_on at h
  split at h
  · exact Option.some.inj h
  · exact Option.some.inj h
  · exact Option.some.inj h
  · exact absurd h (by simp)

/-- `can_move_to` on an Empty target accepts the movement. -/
theorem can_move_to_empty (tx ty : Int) (m : Movement) (fs : Int) :
    can_move_to (some (Tile.mk tx ty Field.Empty)) m fs = some m := rfl

/-- `can_move_to` on a Dirt target accepts the movement, because
`get_object_on` maps Dirt (like Empty) to `None`. -/
theorem can_move_to_dirt (tx ty : Int) (m : Movement) (fs : Int) :
    can_move_to (some (Tile.mk tx ty Field.Dirt)) m fs = some m := rfl

/-- `can_move_to` on a Wall target rejects the movement. -/
theorem can_move_to_wall (tx ty : Int) (w : Wall) (m : Movement) (fs : Int) :
    can_move_to (some (Tile.mk tx ty (Field.Wall w))) m fs = none := rfl

/-- `can_move_to` on an Exit target rejects the movement. -/
theorem can_move_to_exit (tx ty : Int) (m : Movement) (fs : Int) :
    can_move_to (some (Tile.mk tx ty Field.Exit)) m fs = none := rfl

/-- `can_move_to` on an entity-occupied target reduces to the player/falling/
down test. -/
theorem can_move_to_entity (tx ty : Int) (e : GEntity) (m : Movement) (fs : Int) :
    can_move_to (some (Tile.mk tx ty (Field.Entity e))) m fs =
      if e.get_type = "Player" ∧ fs > 0 ∧ m = Movement.MoveDown then some m else none := rfl

/-- `can_move_to` only ever accepts the direction it was asked about. -/
theorem can_move_to_some_eq (tile : Option Tile) (m m' : Movement) (fs : Int)
    (h : can_move_to tile m fs = some m') : m' = m := by
  rcases tile with _ | ⟨tx, ty, tf⟩
  · exact absurd h (by simp [can_move_to])
  · rcases tf with _ | _ | w | _ | e
    · rw [can_move_to_empty] at h
      exact (Option.some.inj h).symm
    · rw [can_move_to_dirt] at h
      exact (Option.some.inj h).symm
    · rw [can_move_to_wall] at h
      exact absurd h (by simp)
    · rw [can_move_to_exit] at h
      exact absurd h (by simp)
    · rw [can_move_to_entity] at h
      by_cases hc : e.get_type = "Player" ∧ fs > 0 ∧ m = Movement.MoveDown
      · rw [if_pos hc] at h; exact (Option.some.inj h).symm
      · rw [if_neg hc] at h; exact absurd h (by simp)

/-- `is_falling` only ever reports one of the three tested directions. -/
theorem is_falling_direction (d : Diamond) (g : Grid) (m : Movement)
    (h : d.is_falling g = some m) :
    m = Movement.MoveDown ∨ m = Movement.MoveLeft ∨ m = Movement.MoveRight := by
  unfold Diamond.is_falling at h
  rcases h1 : can_move_to (g.get_nearest_tile d.position.1 d.position.2 .MoveDown)
      .MoveDown d.falling_since with _ | m1
  · rw [h1] at h
    rcases h2 : can_move_to (g.get_nearest_tile d.position.1 d.position.2 .MoveLeft)
        .MoveLeft d.falling_since with _ | m2
    · rw [h2] at h
      rcases h3 : can_move_to (g.get_nearest_tile d.position.1 d.position.2 .MoveRight)
          .MoveRight d.falling_since with _ | m3
      · rw [h3] at h; exact absurd h (by simp)
      · rw [h3] at h
        exact Or.inr (Or.inr ((Option.some.inj h).symm.trans (can_move_to_some_eq _ _ _ _ h3)))
    · rw [h2] at h
      exact Or.inr (Or.inl ((Option.some.inj h).symm.trans (can_move_to_some_eq _ _ _ _ h2)))
  · rw [h1] at h
    exact Or.inl ((Option.some.inj h).symm.trans (can_move_to_some_eq _ _ _ _ h1))

/-- A one-step translation in a cardinal direction never returns the input
coordinate. -/
theorem edit_position_ne_self (m : Movement) (p : Int × Int)
    (hm : m = Movement.MoveDown ∨ m = Movement.MoveLeft ∨ m = Movement.MoveRight) :
    m.edit_position p ≠ p := by
  obtain ⟨x, y⟩ := p
  rcases hm with rfl | rfl | rfl <;>
    simp only [Movement.edit_position, Prod.mk.injEq, ne_eq, not_and] <;> intros <;> omega

/-! ## Concrete fixtures used by witnesses and counterexamples -/

/-- A tile holding the player, used as a fall target in witnesses. -/
def tile_player_below : Tile :=
  Tile.mk 0 1 (Field.Entity (.player { position := (0, 1), movement := .Afk, pushing := false }))

/-- A 1×2 column: a diamond above the player. -/
def grid_player_below (fs : Int) : Grid :=
  { tiles := [[Tile.mk 0 0 (Field.Entity (.diamond { position := (0, 0), falling_since := fs }))],
              [tile_player_below]],
    player_position := (0, 1), zones := [] }

/-- A 1×2 column: a diamond above a Dirt cell. -/
def grid_dirt_below : Grid :=
  { tiles := [[Tile.mk 0 0 (Field.Entity (.diamond { position := (0, 0), falling_since := 0 }))],
              [Tile.mk 0 1 Field.Dirt]],
    player_position := (0, 0), zones := [] }

/-- A 1×2 column: a diamond above an Empty cell. -/
def grid_empty_below : Grid :=
  { tiles := [[Tile.mk 0 0 (Field.Entity (.diamond { position := (0, 0), falling_since := 0 }))],
              [Tile.mk 0 1 Field.Empty]],
    player_position := (0, 0), zones := [] }

/-- A 1×1 grid holding only a diamond: every fall target is off-grid. -/
def grid_stuck : Grid :=
  { tiles := [[Tile.mk 0 0 (Field.Entity (.diamond { position := (0, 0), falling_since := 0 }))]],
    player_position := (0, 0), zones := [] }

/-! ## Claims -/

/-- C1: for every falling entity (Diamond) and grid, a candidate direction
whose target cell holds a Player-typed entity is eligible if and only if the
diamond's `falling_since` counter is greater than 0 and the direction under
test is `MoveDown`; in particular with `falling_since = 0` the diamond is
never eligible to move onto the Player-occupied cell, even directly below. -/
theorem claim_C1_player_occupied_eligibility
    (d : Diamond) (g : Grid) (m : Movement) (t : Tile) (e : GEntity)
    (hnear : g.get_nearest_tile d.position.1 d.position.2 m = some t)
    (hobj : t.get_object_on = some (Field.Entity e))
    (hplayer : e.get_type = "Player") :
    can_move_to (some t) m d.falling_since = some m ↔
      d.falling_since > 0 ∧ m = Movement.MoveDown := by
  obtain ⟨tx, ty, tf⟩ := t
  have hf : tf = Field.Entity e := field_of_get_object_on _ _ hobj
  subst hf
  rw [can_move_to_entity]
  by_cases hc : d.falling_since > 0 ∧ m = Movement.MoveDown
  · rw [if_pos ⟨hplayer, hc.1, hc.2⟩]
    simp [hc]
  · rw [if_neg (fun h => hc ⟨h.2.1, h.2.2⟩)]
    constructor
    · intro h; exact absurd h (by simp)
    · intro h; exact absurd h hc

/-- C1 witness: with the player directly below, a diamond with
`falling_since = 1` is eligible to move down onto the player's cell, and one
with `falling_since = 0` is not. -/
theorem claim_C1_witness :
    can_move_to (some tile_player_below) Movement.MoveDown (1 : Int) =
      some Movement.MoveDown ∧
    ¬ can_move_to (some tile_player_below) Movement.MoveDown (0 : Int) =
      some Movement.MoveDown := by
  constructor
  · exact (claim_C1_player_occupied_eligibility
      { position := (0, 0), falling_since := 1 } (grid_player_below 1)
      Movement.MoveDown tile_player_below
      (.player { position := (0, 1), movement := .Afk, pushing := false })
      rfl rfl rfl).mpr ⟨by decide, rfl⟩
  · intro h
    have hc := (claim_C1_player_occupied_eligibility
      { position := (0, 0), falling_since := 0 } (grid_player_below 0)
      Movement.MoveDown tile_player_below
      (.player { position := (0, 1), movement := .Afk, pushing := false })
      rfl rfl rfl).mp h
    exact absurd hc.1 (by decide)

/-- C2, evaluated at the failing input: a Diamond with `falling_since = 0`
directly above a Dirt cell is reported falling `MoveDown` by
`Diamond::is_falling` — the Dirt cell does not block, because
`Tile::get_object_on` maps Dirt to `None`, which makes the
`Some(Field::Dirt) => None` arm of `can_move_to` unreachable. -/
theorem claim_C2_dirt_does_not_block :
    grid_dirt_below.get_tile 0 1 = some (Tile.mk 0 1 Field.Dirt) ∧
    Diamond.is_falling { position := (0, 0), falling_since := 0 } grid_dirt_below =
      some Movement.MoveDown := by
  exact ⟨rfl, rfl⟩

/-- The directional fall-candidate check of `is_falling` at one direction, as
a named function: `can_move_to` applied to the nearest tile in that
direction. -/
def fall_candidate (d : Diamond) (g : Grid) (m : Movement) : Option Movement :=
  can_move_to (g.get_nearest_tile d.position.1 d.position.2 m) m d.falling_since

/-- Unfolding `findSome?` on a three-element priority list. -/
theorem findSome?_three {α β : Type} (f : α → Option β) (a b c : α) :
    [a, b, c].findSome? f =
      match f a with
      | some r => some r
      | none =>
        match f b with
        | some r => some r
        | none =>
          match f c with
          | some r => some r
          | none => none := by
  rcases h1 : f a with _ | r1 <;> rcases h2 : f b with _ | r2 <;> rcases h3 : f c with _ | r3 <;>
    simp [List.findSome?, h1, h2, h3]

/-- C3: `Diamond::is_falling` tests the candidate directions in the fixed
priority order down, left, right, and the first eligible one wins (the
`findSome?` over that priority list); a direction whose target cell is Empty
and that is not preceded by an eligible higher-priority direction is chosen;
an off-grid target is never eligible. -/
theorem claim_C3_priority_down_left_right (d : Diamond) (g : Grid) :
    (d.is_falling g =
      [Movement.MoveDown, Movement.MoveLeft, Movement.MoveRight].findSome?
        (fall_candidate d g)) ∧
    (∀ t, g.get_nearest_tile d.position.1 d.position.2 Movement.MoveDown = some t →
      t.field = Field.Empty → d.is_falling g = some Movement.MoveDown) ∧
    (∀ t, fall_candidate d g Movement.MoveDown = none →
      g.get_nearest_tile d.position.1 d.position.2 Movement.MoveLeft = some t →
      t.field = Field.Empty → d.is_falling g = some Movement.MoveLeft) ∧
    (∀ t, fall_candidate d g Movement.MoveDown = none →
      fall_candidate d g Movement.MoveLeft = none →
      g.get_nearest_tile d.position.1 d.position.2 Movement.MoveRight = some t →
      t.field = Field.Empty → d.is_falling g = some Movement.MoveRight) ∧
    (∀ m, g.get_nearest_tile d.position.1 d.position.2 m = none →
      fall_candidate d g m = none) := by
  refine ⟨?_, ?_, ?_, ?_, ?_⟩
  · rw [findSome?_three]
    unfold Diamond.is_falling fall_candidate
    cases h1 : can_move_to (g.get_nearest_tile d.position.1 d.position.2 Movement.MoveDown)
        Movement.MoveDown d.falling_since with
    | some m1 => rfl
    | none =>
      cases h2 : can_move_to (g.get_nearest_tile d.position.1 d.position.2 Movement.MoveLeft)
          Movement.MoveLeft d.falling_since with
      | some m2 => rfl
      | none =>
        cases h3 : can_move_to (g.get_nearest_tile d.position.1 d.position.2 Movement.MoveRight)
            Movement.MoveRight d.falling_since with
        | some m3 => rfl
        | none => rfl
  · intro t ht hf
    obtain ⟨tx, ty, tf⟩ := t
    have hf' : tf = Field.Empty := hf
    subst hf'
    unfold Diamond.is_falling
    rw [ht, can_move_to_empty]
  · intro t h1 ht hf
    obtain ⟨tx, ty, tf⟩ := t
    have hf' : tf = Field.Empty := hf
    subst hf'
    unfold Diamond.is_falling
    unfold fall_candidate at h1
    rw [h1, ht, can_move_to_empty]
  · intro t h1 h2 ht hf
    obtain ⟨tx, ty, tf⟩ := t
    have hf' : tf = Field.Empty := hf
    subst hf'
    unfold Diamond.is_falling
    unfold fall_candidate at h1 h2
    rw [h1, h2, ht, can_move_to_empty]
  · intro m hm
    unfold fall_candidate
    rw [hm]
    rfl

/-- C3 witness: with an Empty cell directly below, the diamond is eligible to
fall down, and the off-grid `MoveUp` target above the top row is never
eligible. -/
theorem claim_C3_witness :
    Diamond.is_falling { position := (0, 0), falling_since := 0 } grid_empty_below =
      some Movement.MoveDown ∧
    fall_candidate { position := (0, 0), falling_since := 0 } grid_empty_below
      Movement.MoveUp = none := by
  constructor
  · exact (claim_C3_priority_down_left_right
      { position := (0, 0), falling_since := 0 } grid_empty_below).2.1
      (Tile.mk 0 1 Field.Empty) rfl rfl
  · exact (claim_C3_priority_down_left_right
      { position := (0, 0), falling_since := 0 } grid_empty_below).2.2.2.2
      Movement.MoveUp rfl

/-- C4: if no direction is eligible, `Diamond::fall` emits exactly one Action
re-placing the diamond on its current tile with `falling_since` reset to 0; if
a direction is eligible, it emits exactly two Actions — first setting the old
cell to Empty, then placing the clone, with `falling_since` incremented by
one, on the target cell. -/
theorem claim_C4_fall_actions (d : Diamond) (g : Grid) :
    (d.is_falling g = none →
      d.fall g =
        [Action.mk d.position (Field.Entity (.diamond { d with falling_since := 0 }))]) ∧
    (∀ m, d.is_falling g = some m →
      d.fall g =
        [Action.mk d.position Field.Empty,
         Action.mk (m.edit_position d.position)
           (Field.Entity (.diamond { d with falling_since := d.falling_since + 1 }))]) := by
  constructor
  · intro h
    unfold Diamond.fall
    rw [h]
  · intro m h
    unfold Diamond.fall
    rw [h]
    rfl

/-- C4 witness: a boxed-in diamond emits the single reset action; a diamond
above an Empty cell emits the vacate action followed by the occupy action with
the incremented counter. -/
theorem claim_C4_witness :
    Diamond.fall { position := (0, 0), falling_since := 0 } grid_stuck =
      [Action.mk (0, 0)
        (Field.Entity (.diamond { position := (0, 0), falling_since := 0 }))] ∧
    Diamond.fall { position := (0, 0), falling_since := 0 } grid_empty_below =
      [Action.mk (0, 0) Field.Empty,
       Action.mk (0, 1)
         (Field.Entity (.diamond { position := (0, 0), falling_since := 1 }))] := by
  constructor
  · exact (claim_C4_fall_actions { position := (0, 0), falling_since := 0 } grid_stuck).1 rfl
  · exact (claim_C4_fall_actions { position := (0, 0), falling_since := 0 }
      grid_empty_below).2 Movement.MoveDown rfl

/-- C7 (implicit): when a fall direction is eligible, the occupy Action that
`Diamond::fall`/`move_to` emits for the destination cell carries a clone whose
`position` field is still the old source coordinate (only `falling_since` is
updated), and that coordinate differs from the cell the action occupies. -/
theorem claim_C7_clone_keeps_source_position (d : Diamond) (g : Grid) (m : Movement)
    (h : d.is_falling g = some m) :
    (d.fall g)[1]? =
      some (Action.mk (m.edit_position d.position)
        (Field.Entity (.diamond { position := d.position,
                                  falling_since := d.falling_since + 1 }))) ∧
    m.edit_position d.position ≠ d.position := by
  constructor
  · unfold Diamond.fall
    rw [h]
    rfl
  · exact edit_position_ne_self m d.position (is_falling_direction d g m h)

/-- C7 witness: the diamond falling from (0,0) into the Empty cell (0,1) is
written into the new cell still carrying position (0,0). -/
theorem claim_C7_witness :
    (Diamond.fall { position := (0, 0), falling_since := 0 } grid_empty_below)[1]? =
      some (Action.mk (0, 1)
        (Field.Entity (.diamond { position := (0, 0), falling_since := 1 }))) ∧
    ((0, 1) : Int × Int) ≠ ((0, 0) : Int × Int) := by
  exact claim_C7_clone_keeps_source_position
    { position := (0, 0), falling_since := 0 } grid_empty_below Movement.MoveDown rfl

/-- C10: `Grid::get_nearest_tile` with direction `Afk` returns no tile for
every grid and coordinate — never the origin tile. -/
theorem claim_C10_afk_yields_no_tile (g : Grid) (x y : Int) :
    g.get_nearest_tile x y Movement.Afk = none := rfl

/-- A successful `get_tile` implies non-negative coordinates. -/
theorem get_tile_bounds (g : Grid) (x y : Int) (t : Tile)
    (h : g.get_tile x y = some t) : 0 ≤ x ∧ 0 ≤ y := by
  unfold Grid.get_tile at h
  split at h
  · assumption
  · exact absurd h (by simp)

/-- Applying an action targeting `(x, y)` overwrites the field of the tile at
`(x, y)` with the action's field. -/
theorem get_tile_apply_self (a : Action) (g : Grid) (x y : Int) (t : Tile)
    (hc : a.coordinates = (x, y)) (h : g.get_tile x y = some t) :
    (a.apply g).get_tile x y = some (t.set_object_on a.field) := by
  obtain ⟨c, af⟩ := a
  obtain ⟨hx, hy⟩ := get_tile_bounds g x y t h
  cases hc
  unfold Grid.get_tile at h
  rw [if_pos ⟨hx, hy⟩, Option.bind_eq_some] at h
  obtain ⟨row, hrow, htile⟩ := h
  obtain ⟨hylt, -⟩ := List.getElem?_eq_some.mp hrow
  obtain ⟨hxlt, -⟩ := List.getElem?_eq_some.mp htile
  unfold Action.apply
  simp only
  rw [if_pos ⟨hx, hy⟩]
  split
  · rename_i heq
    rw [heq] at hrow
    exact absurd hrow (by simp)
  · rename_i row' heq
    rw [heq] at hrow
    obtain rfl : row' = row := Option.some.inj hrow
    split
    · rename_i heq2
      rw [heq2] at htile
      exact absurd htile (by simp)
    · rename_i t' heq2
      rw [heq2] at htile
      obtain rfl : t' = t := Option.some.inj htile
      unfold Grid.get_tile
      rw [if_pos ⟨hx, hy⟩]
      simp only [List.getElem?_set_self hylt, Option.some_bind,
        List.getElem?_set_self hxlt]

/-- Applying an action that does not target `(x, y)` leaves the lookup at
`(x, y)` unchanged. -/
theorem get_tile_apply_other (a : Action) (g : Grid) (x y : Int)
    (hc : a.coordinates ≠ (x, y)) :
    (a.apply g).get_tile x y = g.get_tile x y := by
  obtain ⟨⟨ax, ay⟩, af⟩ := a
  unfold Action.apply
  simp only at hc ⊢
  split
  · rename_i hba
    split
    · rfl
    · rename_i row hrow
      split
      · rfl
      · rename_i t htile
        unfold Grid.get_tile
        split
        · rename_i hbxy
          simp only
          by_cases hyy : ay.toNat = y.toNat
          · have hyeq : ay = y := by omega
            have hxne : ax ≠ x := by
              intro hxeq
              exact hc (by rw [hxeq, hyeq])
            have hxnat : ax.toNat ≠ x.toNat := by omega
            rw [hyy] at hrow
            obtain ⟨hylt, -⟩ := List.getElem?_eq_some.mp hrow
            rw [hyy, List.getElem?_set_self hylt, hrow, Option.some_bind, Option.some_bind,
              List.getElem?_set_ne hxnat]
          · rw [List.getElem?_set_ne hyy]
        · rfl
  · rfl

/-- A tile that exists keeps existing (possibly overwritten) under any action
list. -/
theorem get_tile_apply_actions_exists (l : List Action) (g : Grid) (x y : Int) (t : Tile)
    (h : g.get_tile x y = some t) :
    ∃ t', (g.apply_actions l).get_tile x y = some t' := by
  induction l generalizing g t with
  | nil => exact ⟨t, h⟩
  | cons a l ih =>
    show ∃ t', ((a.apply g).apply_actions l).get_tile x y = some t'
    by_cases hc : a.coordinates = (x, y)
    · exact ih (a.apply g) (t.set_object_on a.field) (get_tile_apply_self a g x y t hc h)
    · exact ih (a.apply g) t ((get_tile_apply_other a g x y hc).trans h)

/-- An action list none of whose actions targets `(x, y)` leaves the lookup at
`(x, y)` unchanged. -/
theorem get_tile_apply_actions_untouched (l : List Action) (g : Grid) (x y : Int)
    (hl : ∀ a ∈ l, a.coordinates ≠ (x, y)) :
    (g.apply_actions l).get_tile x y = g.get_tile x y := by
  induction l generalizing g with
  | nil => rfl
  | cons a l ih =>
    show ((a.apply g).apply_actions l).get_tile x y = g.get_tile x y
    rw [ih (a.apply g) (fun b hb => hl b (List.mem_cons_of_mem a hb)),
      get_tile_apply_other a g x y (hl a (List.mem_cons_self a l))]

/-- Splitting `apply_actions` around two marked actions. -/
theorem apply_actions_split (g : Grid) (l1 l2 l3 : List Action) (a1 a2 : Action) :
    g.apply_actions (l1 ++ a1 :: (l2 ++ a2 :: l3)) =
      Grid.apply_actions
        (Action.apply a2 (Grid.apply_actions (Action.apply a1 (g.apply_actions l1)) l2))
        l3 := by
  unfold Grid.apply_actions
  rw [List.foldl_append, List.foldl_cons, List.foldl_append, List.foldl_cons]

/-- C6: applying an Action list in which an action `a1` and a later action
`a2` target the same existing coordinate (and no action after `a2` targets it)
leaves that coordinate holding `a2`'s Field, regardless of `a1`'s Field:
actions are folded strictly in emission order with a last-writer-wins
overwrite and no conflict error. -/
theorem claim_C6_last_writer_wins (g : Grid) (l1 l2 l3 : List Action) (a1 a2 : Action)
    (x y : Int) (t : Tile)
    (h1 : a1.coordinates = (x, y)) (h2 : a2.coordinates = (x, y))
    (h3 : ∀ a ∈ l3, a.coordinates ≠ (x, y))
    (ht : g.get_tile x y = some t) :
    ∃ t', (g.apply_actions (l1 ++ a1 :: (l2 ++ a2 :: l3))).get_tile x y = some t' ∧
      t'.field = a2.field := by
  obtain ⟨t1, ht1⟩ := get_tile_apply_actions_exists l1 g x y t ht
  have ha1 := get_tile_apply_self a1 (g.apply_actions l1) x y t1 h1 ht1
  obtain ⟨t2, ht2⟩ :=
    get_tile_apply_actions_exists l2 (Action.apply a1 (g.apply_actions l1)) x y
      (t1.set_object_on a1.field) ha1
  have ha2 := get_tile_apply_self a2
    (Grid.apply_actions (Action.apply a1 (g.apply_actions l1)) l2) x y t2 h2 ht2
  refine ⟨t2.set_object_on a2.field, ?_, rfl⟩
  rw [apply_actions_split]
  rw [get_tile_apply_actions_untouched l3 _ x y h3]
  exact ha2

/-- C6 witness: on a 1×1 grid, applying a Dirt-writing action and then an
Exit-writing action to cell (0,0) leaves (0,0) holding Exit. -/
theorem claim_C6_witness :
    ∃ t', (Grid.apply_actions
        { tiles := [[Tile.mk 0 0 Field.Empty]], player_position := (0, 0), zones := [] }
        [Action.mk (0, 0) Field.Dirt, Action.mk (0, 0) Field.Exit]).get_tile 0 0 =
      some t' ∧ t'.field = Field.Exit := by
  exact claim_C6_last_writer_wins
    { tiles := [[Tile.mk 0 0 Field.Empty]], player_position := (0, 0), zones := [] }
    [] [] [] (Action.mk (0, 0) Field.Dirt) (Action.mk (0, 0) Field.Exit)
    0 0 (Tile.mk 0 0 Field.Empty) rfl rfl (by intro a ha; exact absurd ha (by simp)) rfl

/-- Indexing one built row: the tile at column `i` comes from the character at
`i`, positioned at `x0 + i`. -/
theorem build_row_getElem? (y : Int) (x0 : Nat) (cs : List Char) (i : Nat) :
    (build_row y x0 cs)[i]? = cs[i]?.map (fun ch =>
      Tile.mk ((x0 + i : Nat) : Int) y (field_of_char ((x0 + i : Nat) : Int) y ch)) := by
  induction cs generalizing x0 i with
  | nil => simp [build_row]
  | cons c cs ih =>
    cases i with
    | zero => simp [build_row]
    | succ i =>
      simp only [build_row, List.getElem?_cons_succ]
      rw [ih (x0 + 1) i]
      have hi : x0 + 1 + i = x0 + (i + 1) := by omega
      simp only [hi]

/-- Indexing the built rows: the row at line `j` comes from the line at `j`,
with row coordinate `y0 + j`. -/
theorem build_rows_getElem? (y0 : Nat) (ls : List String) (j : Nat) :
    (build_rows y0 ls)[j]? =
      ls[j]?.map (fun line => build_row ((y0 + j : Nat) : Int) 0 line.toList) := by
  induction ls generalizing y0 j with
  | nil => simp [build_rows]
  | cons l ls ih =>
    cases j with
    | zero => simp [build_rows]
    | succ j =>
      simp only [build_rows, List.getElem?_cons_succ]
      rw [ih (y0 + 1) j]
      have hj : y0 + 1 + j = y0 + (j + 1) := by omega
      simp only [hj]

/-- C8: for every level text accepted by `Grid::from_str`, reading back any
cell reproduces the character-to-Field mapping of the source text exactly:
the cell at column `x`, row `y` (zero-based) holds the Field of the
character at position `x` of the text line `y` counted from line 4 onward,
with 'W' ↦ Wall, 'r' ↦ Rock, 'd' ↦ Diamond, '.' ↦ Dirt, 'P' ↦ Player,
'X' ↦ Exit and anything else ↦ Empty. -/
theorem claim_C8_from_str_roundtrip (ls : List String) (sx sy : Int) (g : Grid)
    (x y : Nat) (line : String) (ch : Char)
    (hg : Grid.from_str ls sx sy = some g)
    (hline : (ls.drop 3)[y]? = some line)
    (hch : line.toList[x]? = some ch) :
    g.get_tile (x : Int) (y : Int) =
      some (Tile.mk (x : Int) (y : Int) (field_of_char (x : Int) (y : Int) ch)) := by
  unfold Grid.from_str at hg
  cases hh : parse_header ls with
  | none =>
    rw [hh] at hg
    exact absurd hg (by simp)
  | some quad =>
    rw [hh] at hg
    obtain ⟨height, width, px, py⟩ := quad
    have hgv := Option.some.inj hg
    subst hgv
    unfold Grid.get_tile
    rw [if_pos ⟨Int.natCast_nonneg x, Int.natCast_nonneg y⟩]
    simp only [Int.toNat_natCast]
    rw [build_rows_getElem? 0 (ls.drop 3) y, hline, Option.map_some', Option.some_bind,
      build_row_getElem? ((0 + y : Nat) : Int) 0 line.toList x, hch, Option.map_some']
    simp only [Nat.zero_add]

/-- The sample level text used by the C8 witness, as its list of lines. -/
def sample_level : List String := ["2 2", "0 0", "meta", "dW", ".P"]

/-- The grid built from the sample level. -/
def sample_grid : Grid :=
  { tiles := build_rows 0 (sample_level.drop 3),
    player_position := (0, 0),
    zones := Zone.from_map 2 2 100 100 }

/-- C8 witness: parsing the sample level succeeds, and the cell at column 1,
row 0 reads back as the Wall that character 'W' at that position maps to. -/
theorem claim_C8_witness :
    sample_grid.get_tile 1 0 = some (Tile.mk 1 0 (Field.Wall { position := (1, 0) })) := by
  exact claim_C8_from_str_roundtrip sample_level 100 100 sample_grid 1 0 "dW" 'W'
    rfl rfl rfl

/-- The row scan accumulates, in order, exactly the matching entities of the
row after the accumulator. -/
theorem scan_row_eq (k : EntityKind) (ts : List Tile) :
    ∀ acc, scan_row k acc ts = acc ++ ts.filterMap (entity_of_kind k) := by
  induction ts with
  | nil => intro acc; simp [scan_row]
  | cons t ts ih =>
    intro acc
    rcases hobj : t.get_object_on with _ | f
    · simp only [scan_row, hobj]
      rw [List.filterMap_cons_none (by simp [entity_of_kind, hobj]), ih acc]
    · rcases f with _ | _ | w | _ | e
      · simp only [scan_row, hobj]
        rw [List.filterMap_cons_none (by simp [entity_of_kind, hobj]), ih acc]
      · simp only [scan_row, hobj]
        rw [List.filterMap_cons_none (by simp [entity_of_kind, hobj]), ih acc]
      · simp only [scan_row, hobj]
        rw [List.filterMap_cons_none (by simp [entity_of_kind, hobj]), ih acc]
      · simp only [scan_row, hobj]
        rw [List.filterMap_cons_none (by simp [entity_of_kind, hobj]), ih acc]
      · simp only [scan_row, hobj]
        by_cases hk : e.kind = k
        · have hfm : entity_of_kind k t = some e := by simp [entity_of_kind, hobj, hk]
          rw [if_pos hk, List.filterMap_cons_some hfm, ih (acc ++ [e])]
          simp
        · rw [if_neg hk, List.filterMap_cons_none (by simp [entity_of_kind, hobj, hk]),
            ih acc]

/-- The nested row scan collects exactly the matching entities of the
flattened (row-major) tile list. -/
theorem scan_rows_eq (k : EntityKind) (rows : List (List Tile)) :
    ∀ acc, scan_rows k acc rows = acc ++ rows.flatten.filterMap (entity_of_kind k) := by
  induction rows with
  | nil => intro acc; simp [scan_rows]
  | cons row rows ih =>
    intro acc
    simp only [scan_rows]
    rw [ih (scan_row k acc row), scan_row_eq, List.flatten_cons, List.filterMap_append,
      List.append_assoc]

/-- `get_tiles_with_entity` is the row-major filter of the tile array. -/
theorem get_tiles_with_entity_eq (g : Grid) (k : EntityKind) :
    g.get_tiles_with_entity k = g.tiles.flatten.filterMap (entity_of_kind k) := by
  unfold Grid.get_tiles_with_entity
  rw [scan_rows_eq]
  rfl

/-- Every entity collected by `get_tiles_with_entity` has the requested
dynamic type. -/
theorem get_tiles_with_entity_kind (g : Grid) (k : EntityKind) (e : GEntity)
    (h : e ∈ g.get_tiles_with_entity k) : e.kind = k := by
  rw [get_tiles_with_entity_eq] at h
  obtain ⟨t, -, ht⟩ := List.mem_filterMap.mp h
  unfold entity_of_kind at ht
  split at ht
  · split at ht
    · rename_i e' _ _ hk
      cases Option.some.inj ht
      exact hk
    · exact absurd ht (by simp)
  · exact absurd ht (by simp)

/-- C5: in every call to `Grid::update`, the entity passes occur in the fixed
order Rocks, then Player, then Diamonds — the tick is exactly the rock pass
(collect, then apply) followed by the player pass (player tile update applied,
cached player coordinate refreshed) followed by the diamond pass (collected
and applied on the state left by the player pass) — and
`get_tiles_with_entity` collects entities in row-major scan order: it equals
the filter of the flattened (rows top-to-bottom, tiles left-to-right) tile
array. -/
theorem claim_C5_pass_order :
    (∀ (ptu : Tile → Grid → List Action) (g : Grid),
      Grid.update ptu g =
        (g.rocks_pass).bind (fun g1 => (g1.player_pass ptu).bind Grid.diamonds_pass)) ∧
    (∀ (g : Grid) (k : EntityKind),
      g.get_tiles_with_entity k = g.tiles.flatten.filterMap (entity_of_kind k)) := by
  constructor
  · intro ptu g
    unfold Grid.update Grid.rocks_pass Grid.player_pass Grid.diamonds_pass
    cases collect_updates (rock_update_dispatch g) (g.get_tiles_with_entity .Rock) with
    | error msg => rfl
    | ok rock_actions =>
      simp only [Except.bind]
      cases Zone.get_current_zone (g.apply_actions rock_actions).player_position.1
          (g.apply_actions rock_actions).player_position.2
          (g.apply_actions rock_actions).zones with
      | none => rfl
      | some zone =>
        simp only [Except.bind]
        split
        · rfl
        · rfl
  · exact get_tiles_with_entity_eq

/-- Whether a tick outcome is a fatal fault (a panic, embedded as `error`). -/
def is_fatal : Except String Grid → Bool
  | .error _ => true
  | .ok _ => false

/-- A player-tile update capability that emits no actions; the Rust
`Tile::update` for the player is outside the provided sources, and in the
scenarios below the player tile is absent, so it is never consulted. -/
def no_player_tile_update : Tile → Grid → List Action := fun _ _ => []

/-- A grid whose cached player position (5,5) has no tile, with no entities at
all and a zone table covering the declared 10×10 map. -/
def grid_no_entities : Grid :=
  { tiles := [], player_position := (5, 5),
    zones := [{ x0 := 0, y0 := 0, x1 := 10, y1 := 10 }] }

/-- A grid whose cached player position (5,5) has no tile, holding one
diamond. -/
def grid_one_diamond : Grid :=
  { tiles := [[Tile.mk 0 0 (Field.Entity (.diamond { position := (0, 0), falling_since := 0 }))]],
    player_position := (5, 5), zones := [] }

/-- C9 counterexample: a tick in which the tile at the cached player position
cannot be located does NOT necessarily fault — on a grid with no Rock or
Diamond entity (whose updates are what dereference the player tile) and a zone
covering the cached position, `Grid::update` completes normally: the player
tile lookup on line 81 of `grid.rs` is an `if let` that silently skips. -/
theorem claim_C9_counterexample :
    grid_no_entities.get_tile 5 5 = none ∧
    Grid.update no_player_tile_update grid_no_entities = Except.ok grid_no_entities ∧
    is_fatal (Grid.update no_player_tile_update grid_no_entities) = false := by
  exact ⟨rfl, rfl, rfl⟩

/-- C9 as amended: when the tile at the cached player position cannot be
located and the grid holds a Diamond-kind entity (here with no rocks and no
player entity, so that no earlier pass faults first or moves the cached
position), the tick entry point faults fatally — `Diamond::update` `unwrap`s
the missing player tile (and the zone `expect` can fault even earlier). -/
theorem claim_C9_missing_player_tile_faults (ptu : Tile → Grid → List Action) (g : Grid)
    (hpt : g.get_tile g.player_position.1 g.player_position.2 = none)
    (hrocks : g.get_tiles_with_entity .Rock = [])
    (hplayers : g.get_tiles_with_entity .Player = [])
    (hdiamonds : g.get_tiles_with_entity .Diamond ≠ []) :
    is_fatal (Grid.update ptu g) = true := by
  obtain ⟨e, rest, hde⟩ : ∃ e rest, g.get_tiles_with_entity .Diamond = e :: rest := by
    cases hd : g.get_tiles_with_entity .Diamond with
    | nil => exact absurd hd hdiamonds
    | cons e rest => exact ⟨e, rest, rfl⟩
  have hkind : e.kind = EntityKind.Diamond :=
    get_tiles_with_entity_kind g .Diamond e (by rw [hde]; exact List.mem_cons_self e rest)
  unfold Grid.update
  rw [hrocks]
  simp only [collect_updates, Grid.apply_actions, List.foldl_nil]
  cases hz : Zone.get_current_zone g.player_position.1 g.player_position.2 g.zones with
  | none => rfl
  | some zone =>
    simp only [hpt, List.isEmpty_nil, if_true, Grid.set_player_doing, hplayers,
      List.head?_nil]
    rw [hz, hde]
    cases e with
    | rock r => exact absurd hkind (by simp [GEntity.kind])
    | player p => exact absurd hkind (by simp [GEntity.kind])
    | diamond d =>
      simp only [collect_updates, diamond_update_dispatch, Diamond.update,
        Grid.get_player_position, hpt]
      rfl

/-- C9 witness: the one-diamond grid with an absent player tile makes the tick
fault. -/
theorem claim_C9_witness :
    is_fatal (Grid.update no_player_tile_update grid_one_diamond) = true := by
  exact claim_C9_missing_player_tile_faults no_player_tile_update grid_one_diamond
    rfl rfl rfl (by decide)

end Game
